import Mathlib

/-!
Verification of the tabiew entry point (src/main.rs) against its
natural-language specification.

The embedding models:
  * the table data (`DataFrame`) as a list of named string columns;
  * the table registry (`SqlBackend`, modelled from the spec, since only
    its caller is in the sources);
  * the startup loop of `main` that decodes each file, registers the
    frame and builds a `Tabular` tab owning its own copy of the frame;
  * `read_csv`, `stdin_to_tmp` and the main event loop, directly from
    `src/main.rs`.
-/

/-- A DataFrame: ordered named columns of (stringified) values.  Equality of
two frames is structural, which models byte-for-byte equality. -/
structure DataFrame where
  columns : List (String × List String)
deriving DecidableEq, Repr

/-- Modelled from the spec: the Table Registry. "Registry Entry: (name, Table,
optional source path)."  `SqlBackend` itself lives outside src/ (only its
caller `main` is in the sources); the list holds the entries, most recent
first. -/
structure SqlBackend where
  tables : List (String × DataFrame × String)
deriving DecidableEq, Repr

/-- Fresh, empty registry (`SqlBackend::new`). -/
def SqlBackend.new : SqlBackend := ⟨[]⟩

/-- Modelled from the spec: `lookup(name) -> Table or NotFound`. -/
def SqlBackend.lookup (b : SqlBackend) (name : String) : Option DataFrame :=
  (b.tables.find? (fun e => e.1 == name)).map (fun e => e.2.1)

/-- Numeric disambiguating suffix from the spec's register contract. -/
def suffixed (name : String) (k : Nat) : String :=
  name ++ "_" ++ toString k

/-- First numeric suffix (starting at `k`) whose suffixed name is unused;
`fuel` bounds the search. -/
def freshSuffix (used : List String) (name : String) : Nat → Nat → Nat
  | k, 0 => k
  | k, fuel + 1 =>
    if suffixed name k ∈ used then freshSuffix used name (k + 1) fuel else k

/-- Modelled from the spec: the name actually stored by `register`: "if `name`
already exists, appends a disambiguating suffix (e.g., numeric)". -/
def SqlBackend.effectiveName (b : SqlBackend) (name : String) : String :=
  let used := b.tables.map (fun e => e.1)
  if name ∈ used then suffixed name (freshSuffix used name 1 (used.length + 1))
  else name

/-- Modelled from the spec: `register(name, table, origin) -> effective_name`;
"Fails only on invalid empty name."  On success it stores the entry under the
effective name and returns it together with the updated registry. -/
def SqlBackend.register (b : SqlBackend) (name : String) (df : DataFrame)
    (origin : String) : Option (String × SqlBackend) :=
  if name = "" then none
  else
    let eff := b.effectiveName name
    some (eff, ⟨(eff, df, origin) :: b.tables⟩)

/-- A tab: it owns its own `DataFrame` (main.rs builds it from the decoded
frame itself, `Tabular::new(df, TabularType::Name(name))`), plus the display
name it was registered under. -/
structure Tabular where
  table : DataFrame
  name : String
deriving DecidableEq, Repr

/-- A suffixed name is strictly longer than the base name. -/
theorem suffixed_ne (name : String) (k : Nat) : suffixed name k ≠ name := by
  intro h
  have hlen := congrArg String.length h
  simp only [suffixed, String.length_append] at hlen
  rw [show ("_" : String).length = 1 from rfl] at hlen
  omega

/-- C3: looking up the effective name returned by a successful
`register(name, T, origin)` in the updated registry returns a Table equal
to `T`. -/
theorem lookup_register_roundtrip (b : SqlBackend) (name : String)
    (df : DataFrame) (origin : String) (eff : String) (b' : SqlBackend)
    (h : b.register name df origin = some (eff, b')) :
    b'.lookup eff = some df := by
  unfold SqlBackend.register at h
  split at h
  · exact absurd h (by simp)
  · simp only [Option.some.injEq, Prod.mk.injEq] at h
    obtain ⟨he, hb⟩ := h
    subst he hb
    simp [SqlBackend.lookup, List.find?_cons_of_pos]

/-- C3 witness: registering `t` in an empty registry and looking it up
returns the registered frame. -/
theorem lookup_register_roundtrip_witness :
    (SqlBackend.mk [("t", ⟨[("c", ["1"])]⟩, "p")]).lookup "t"
      = some ⟨[("c", ["1"])]⟩ :=
  lookup_register_roundtrip SqlBackend.new "t" ⟨[("c", ["1"])]⟩ "p" "t"
    (SqlBackend.mk [("t", ⟨[("c", ["1"])]⟩, "p")]) rfl

/-- C4: `register` returns the name it actually stored (the stored entry under
the returned name holds the given table); an empty name fails; a non-empty
name always succeeds; a fresh name is stored as itself; a colliding name gets
a numeric suffix — so the previously stored entry is still found unchanged
under the original name. -/
theorem register_spec (b : SqlBackend) (name : String) (df : DataFrame)
    (origin : String) :
    (b.register "" df origin = none) ∧
    (name ≠ "" →
      ∃ eff b', b.register name df origin = some (eff, b') ∧
        b'.lookup eff = some df ∧
        (name ∉ b.tables.map (fun e => e.1) → eff = name) ∧
        (name ∈ b.tables.map (fun e => e.1) →
          (∃ k, eff = suffixed name k) ∧ eff ≠ name ∧
            b'.lookup name = b.lookup name)) := by
  constructor
  · simp [SqlBackend.register]
  · intro hne
    refine ⟨b.effectiveName name, ⟨(b.effectiveName name, df, origin) :: b.tables⟩,
      ?_, ?_, ?_, ?_⟩
    · simp [SqlBackend.register, hne]
    · simp [SqlBackend.lookup, List.find?_cons_of_pos]
    · intro hfresh
      simp [SqlBackend.effectiveName, hfresh]
    · intro hused
      have heff : b.effectiveName name
          = suffixed name (freshSuffix (b.tables.map (fun e => e.1)) name 1
              ((b.tables.map (fun e => e.1)).length + 1)) := by
        simp [SqlBackend.effectiveName, hused]
      refine ⟨⟨_, heff⟩, heff ▸ suffixed_ne name _, ?_⟩
      have hne' : (b.effectiveName name == name) = false := by
        simp only [beq_eq_false_iff_ne, ne_eq, heff]
        exact suffixed_ne name _
      simp [SqlBackend.lookup, List.find?_cons_of_neg, hne']

/-- C4 witness: registering `t` twice: the first registration stores `t`
itself; the second stores the suffixed `t_1`, leaves the first entry
reachable unchanged, and the empty name is rejected. -/
theorem register_spec_witness :
    ((SqlBackend.mk [("t", ⟨[("c", ["1"])]⟩, "p")]).register "" ⟨[]⟩ "q"
        = none) ∧
    (∃ eff b', (SqlBackend.mk [("t", ⟨[("c", ["1"])]⟩, "p")]).register "t"
          ⟨[]⟩ "q" = some (eff, b') ∧
        b'.lookup eff = some ⟨[]⟩ ∧
        ("t" ∉ (SqlBackend.mk [("t", ⟨[("c", ["1"])]⟩, "p")]).tables.map
            (fun e => e.1) → eff = "t") ∧
        ("t" ∈ (SqlBackend.mk [("t", ⟨[("c", ["1"])]⟩, "p")]).tables.map
            (fun e => e.1) →
          (∃ k, eff = suffixed "t" k) ∧ eff ≠ "t" ∧
            b'.lookup "t"
              = (SqlBackend.mk [("t", ⟨[("c", ["1"])]⟩, "p")]).lookup "t")) :=
  ⟨(register_spec (SqlBackend.mk [("t", ⟨[("c", ["1"])]⟩, "p")]) "t" ⟨[]⟩ "q").1,
    (register_spec (SqlBackend.mk [("t", ⟨[("c", ["1"])]⟩, "p")]) "t" ⟨[]⟩ "q").2
      (by decide)⟩

/-- The application-side data the startup of `main` builds: the tab collection
and the registry.  Tabs and registry are separate ownership domains. -/
structure AppData where
  tabs : List Tabular
  backend : SqlBackend
deriving DecidableEq, Repr

/-- Modelled from the spec: a subsequent register call on the application
state ("Registering a second table under a name already in use…") mutates
only the registry; the tab collection is not part of the registry. -/
def AppData.registerTable (a : AppData) (name : String) (df : DataFrame)
    (origin : String) : AppData :=
  match a.backend.register name df origin with
  | some x => ⟨a.tabs, x.2⟩
  | none => a

/-- Outcome of the startup file loop of `main` (src/main.rs lines 36-69):
either every file was decoded and registered, or a `panic!` aborted the whole
process with the given message. -/
inductive LoadResult
  | panicked : String → LoadResult
  | done : List Tabular × SqlBackend → LoadResult
deriving DecidableEq, Repr

/-- The startup file loop of `main`: for each path, take the file stem
(`expect("Invalid file name")` panics when absent), decode the file
(`panic!("{}", err)` on a decode error), register the frame under the stem
and build a tab owning its own copy of the frame.  `decode` abstracts
`read_csv`/`read_parquet`; `stem` abstracts `Path::file_stem`. -/
def loadAll (decode : String → Except String DataFrame)
    (stem : String → Option String) :
    List String → List Tabular × SqlBackend → LoadResult
  | [], acc => .done acc
  | p :: rest, acc =>
    match stem p with
    | none => .panicked "Invalid file name"
    | some name =>
      match decode p with
      | .error e => .panicked e
      | .ok df =>
        match acc.2.register name df p with
        | none => .panicked "Invalid file name"
        | some x => loadAll decode stem rest (acc.1 ++ [Tabular.mk df x.1], x.2)

/-- C1: tabs own their own copy of the Table.  First, the startup loop builds
each tab directly from the decoded frame `df` itself (not from a registry
lookup); second, a register call on the application state changes only the
backend, so after any subsequent register call every existing tab — hence its
displayed Table — is equal (byte-for-byte, i.e. structurally) to what it was
before the call. -/
theorem tabs_survive_register (a : AppData) (n : String) (df₀ : DataFrame)
    (o : String) :
    ((a.registerTable n df₀ o).tabs = a.tabs) ∧
    (∀ (decode : String → Except String DataFrame)
        (stem : String → Option String) (p : String) (rest : List String)
        (acc : List Tabular × SqlBackend) (name : String) (df : DataFrame)
        (x : String × SqlBackend),
      stem p = some name → decode p = .ok df → acc.2.register name df p = some x →
      loadAll decode stem (p :: rest) acc
        = loadAll decode stem rest (acc.1 ++ [Tabular.mk df x.1], x.2)) := by
  constructor
  · unfold AppData.registerTable
    split <;> rfl
  · intro decode stem p rest acc name df x hstem hdec hreg
    simp [loadAll, hstem, hdec, hreg]

/-- A concrete well-formed frame used by witnesses and counterexamples. -/
def dfGood : DataFrame := ⟨[("a", ["1", "2"])]⟩

/-- A concrete decoder that fails on `bad.csv` and succeeds elsewhere. -/
def decodeEx : String → Except String DataFrame :=
  fun p => if p = "bad.csv" then .error "decode failure" else .ok dfGood

/-- A concrete stem function: the path itself. -/
def stemEx : String → Option String := fun p => some p

/-- C1 witness: registering a second table under the already-used name `t`
leaves the tab collection unchanged, and the startup step appends the tab
built from the decoded frame itself. -/
theorem tabs_survive_register_witness :
    ((AppData.mk [Tabular.mk dfGood "t"]
        (SqlBackend.mk [("t", dfGood, "p")])).registerTable "t" ⟨[]⟩ "q").tabs
      = [Tabular.mk dfGood "t"] ∧
    loadAll decodeEx stemEx ["good.csv"] ([], SqlBackend.new)
      = loadAll decodeEx stemEx []
          ([Tabular.mk dfGood "good.csv"],
            SqlBackend.mk [("good.csv", dfGood, "good.csv")]) :=
  ⟨(tabs_survive_register
      (AppData.mk [Tabular.mk dfGood "t"] (SqlBackend.mk [("t", dfGood, "p")]))
      "t" ⟨[]⟩ "q").1,
    (tabs_survive_register
      (AppData.mk [Tabular.mk dfGood "t"] (SqlBackend.mk [("t", dfGood, "p")]))
      "t" ⟨[]⟩ "q").2 decodeEx stemEx "good.csv" [] ([], SqlBackend.new)
      "good.csv" dfGood ("good.csv", SqlBackend.mk [("good.csv", dfGood, "good.csv")])
      rfl rfl rfl⟩

/-- C2 counterexample: a decode error on the first file panics (aborting the
whole process) even though the remaining file `good.csv` is decodable — the
loop does not continue with the remaining files, contrary to the claim. -/
theorem decode_error_aborts_process_counterexample :
    loadAll decodeEx stemEx ["bad.csv", "good.csv"] ([], SqlBackend.new)
        = .panicked "decode failure" ∧
    decodeEx "good.csv" = .ok dfGood :=
  ⟨by decide, rfl⟩

/-- C2 amended: when decoding a source file fails, `main` panics with the
error, aborting the whole process at load time; the remaining files are never
decoded or registered. -/
theorem decode_error_panics (decode : String → Except String DataFrame)
    (stem : String → Option String) (p : String) (rest : List String)
    (acc : List Tabular × SqlBackend) (name : String) (e : String)
    (hstem : stem p = some name) (hdec : decode p = .error e) :
    loadAll decode stem (p :: rest) acc = .panicked e := by
  simp [loadAll, hstem, hdec]

/-- C2 amended witness: the panic at the concrete failing input. -/
theorem decode_error_panics_witness :
    loadAll decodeEx stemEx ["bad.csv", "good.csv"] ([], SqlBackend.new)
      = .panicked "decode failure" :=
  decode_error_panics decodeEx stemEx "bad.csv" ["good.csv"]
    ([], SqlBackend.new) "bad.csv" "decode failure" rfl rfl

/-- The events delivered by `tui.events.next()` (src/main.rs lines 88-105):
ticks, key events, mouse events and resize events.  Payloads are abstracted
to numbers. -/
inductive Event
  | tick : Event
  | key : Nat → Event
  | mouse : Nat → Event
  | resize : Nat → Nat → Event
deriving DecidableEq, Repr

/-- The application interface the main loop uses: `app.running()`,
`app.tick()` and `app.handle_key_event(..)` (the latter two are fallible and
live outside src/, so they are abstract here); the state type is a
parameter. -/
structure LoopApp (σ : Type) where
  running : σ → Bool
  tick : σ → Except String σ
  handleKey : σ → Nat → Except String σ

/-- A state-mutating call made by one iteration of the main loop. -/
inductive MutCall
  | tick : MutCall
  | key : Nat → MutCall
deriving DecidableEq, Repr

/-- The mutating calls the loop body makes for one event (src/main.rs lines
88-105): `app.tick()` for a tick, `app.handle_key_event` for a key event,
and nothing for mouse and resize events. -/
def mutCalls : Event → List MutCall
  | .tick => [.tick]
  | .key k => [.key k]
  | .mouse _ => []
  | .resize _ _ => []

/-- Apply a sequence of mutating calls to the application state, stopping at
the first error. -/
def applyCalls (A : LoopApp σ) : σ → List MutCall → Except String σ
  | s, [] => .ok s
  | s, .tick :: rest =>
    match A.tick s with
    | .ok s' => applyCalls A s' rest
    | .error e => .error e
  | s, .key k :: rest =>
    match A.handleKey s k with
    | .ok s' => applyCalls A s' rest
    | .error e => .error e

/-- The body of the main loop's event match (src/main.rs lines 88-105): a
tick calls `app.tick()`, a key event calls `app.handle_key_event`, mouse and
resize events do nothing. -/
def step (A : LoopApp σ) (s : σ) : Event → Except String σ
  | .tick => A.tick s
  | .key k => A.handleKey s k
  | .mouse _ => .ok s
  | .resize _ _ => .ok s

/-- The main loop (src/main.rs lines 81-106): while `app.running()`, consume
the next event and apply the loop body; an error propagates out (via `?`).
The event stream is modelled as a list; `fuel` bounds the iteration count and
the leftover events are returned so consumption is observable. -/
def runLoop (A : LoopApp σ) : Nat → σ → List Event → Except String σ × List Event
  | 0, s, evs => (.ok s, evs)
  | fuel + 1, s, evs =>
    if A.running s then
      match evs with
      | [] => (.ok s, [])
      | e :: rest =>
        match step A s e with
        | .ok s' => runLoop A fuel s' rest
        | .error err => (.error err, rest)
    else (.ok s, evs)

/-- C6: in each iteration of the running loop exactly one event (the head of
the stream) is consumed, the state transition of the loop body is exactly the
sequential application of that event's mutating calls, and every event makes
at most one mutating call (`app.tick` or `app.handle_key_event`) — so
mutations never overlap: they happen one per iteration, sequentially. -/
theorem one_event_one_mutation {σ : Type} (A : LoopApp σ) (s : σ) (e : Event)
    (fuel : Nat) (evs : List Event) (hrun : A.running s = true) :
    (mutCalls e).length ≤ 1 ∧
    step A s e = applyCalls A s (mutCalls e) ∧
    runLoop A (fuel + 1) s (e :: evs)
      = match applyCalls A s (mutCalls e) with
        | .ok s' => runLoop A fuel s' evs
        | .error err => (.error err, evs) := by
  have hstep : step A s e = applyCalls A s (mutCalls e) := by
    cases e with
    | tick =>
      simp only [step, mutCalls, applyCalls]
      cases A.tick s <;> simp [applyCalls]
    | key k =>
      simp only [step, mutCalls, applyCalls]
      cases A.handleKey s k <;> simp [applyCalls]
    | mouse m => rfl
    | resize w h => rfl
  refine ⟨by cases e <;> simp [mutCalls], hstep, ?_⟩
  simp only [runLoop, hrun, if_true, hstep]

/-- A concrete running application on Nat states used by loop witnesses. -/
def appRun : LoopApp Nat :=
  ⟨fun _ => true, fun s => .ok (s + 1), fun s k => .ok (s + k)⟩

/-- A concrete application that has signaled exit. -/
def appStopped : LoopApp Nat :=
  ⟨fun _ => false, fun s => .ok (s + 1), fun s k => .ok (s + k)⟩

/-- C6 witness: a concrete running iteration on a tick event. -/
theorem one_event_one_mutation_witness :
    (mutCalls Event.tick).length ≤ 1 ∧
    step appRun 0 Event.tick = applyCalls appRun 0 (mutCalls Event.tick) ∧
    runLoop appRun 1 0 [Event.tick]
      = match applyCalls appRun 0 (mutCalls Event.tick) with
        | .ok s' => runLoop appRun 0 s' []
        | .error err => (.error err, []) :=
  one_event_one_mutation appRun 0 Event.tick 0 [] rfl

/-- C7: once `app.running()` is false the loop body is never entered again:
for any remaining fuel and any pending events, the loop returns immediately
with the state unchanged and no event consumed, so no tick or key event
reaches the application afterwards. -/
theorem no_events_after_exit {σ : Type} (A : LoopApp σ) (s : σ)
    (hstop : A.running s = false) (fuel : Nat) (evs : List Event) :
    runLoop A fuel s evs = (.ok s, evs) := by
  cases fuel with
  | zero => rfl
  | succ n => simp [runLoop, hstop]

/-- C7 witness: a stopped application consumes nothing from a pending
stream. -/
theorem no_events_after_exit_witness :
    runLoop appStopped 5 7 [Event.tick, Event.key 3]
      = (.ok 7, [Event.tick, Event.key 3]) :=
  no_events_after_exit appStopped 7 rfl 5 [Event.tick, Event.key 3]

/-- C10: a mouse event and a resize event leave the application state
entirely unchanged: the loop body returns the state as-is and makes no
mutating call. -/
theorem mouse_resize_no_effect {σ : Type} (A : LoopApp σ) (s : σ)
    (m w h : Nat) :
    step A s (Event.mouse m) = .ok s ∧
    step A s (Event.resize w h) = .ok s ∧
    mutCalls (Event.mouse m) = [] ∧
    mutCalls (Event.resize w h) = [] :=
  ⟨rfl, rfl, rfl, rfl⟩

/-- Modelled from the spec: `as_ascii` from tabiew::utils (outside src/):
the byte of an ASCII character, and none for a non-ASCII character. -/
def as_ascii (c : Char) : Option Nat :=
  if c.toNat < 128 then some c.toNat else none

/-- The schema-inference mode (tabiew::args::InferSchema, outside src/). -/
inductive InferSchema
  | no : InferSchema
  | fast : InferSchema
  | full : InferSchema
  | safe : InferSchema
deriving DecidableEq, Repr

/-- Modelled from the spec: the reader inference length of each mode
(`infer_schema.into()`): disabled (0), bounded sample, eager full scan
(no bound); Safe reads with inference disabled and post-processes. -/
def InferSchema.toLength : InferSchema → Option Nat
  | .no => some 0
  | .fast => some 128
  | .full => none
  | .safe => some 0

/-- The options `read_csv` hands to the CSV reader, mirroring polars'
`CsvReadOptions` fields that src/main.rs sets. -/
structure CsvReadOptions where
  ignore_errors : Bool
  infer_schema_length : Option Nat
  has_header : Bool
  quote_char : Option Nat
  separator : Nat
deriving DecidableEq, Repr

/-- Polars' defaults for the fields of `CsvReadOptions.default()` that
src/main.rs overrides. -/
def CsvReadOptions.start : CsvReadOptions :=
  ⟨false, some 100, true, some 34, 44⟩

/-- Builder `with_ignore_errors`. -/
def CsvReadOptions.with_ignore_errors (o : CsvReadOptions) (b : Bool) :
    CsvReadOptions := { o with ignore_errors := b }

/-- Builder `with_infer_schema_length`. -/
def CsvReadOptions.with_infer_schema_length (o : CsvReadOptions)
    (n : Option Nat) : CsvReadOptions := { o with infer_schema_length := n }

/-- Builder `with_has_header`. -/
def CsvReadOptions.with_has_header (o : CsvReadOptions) (b : Bool) :
    CsvReadOptions := { o with has_header := b }

/-- Builder `with_quote_char` (an optional ASCII byte). -/
def CsvReadOptions.with_quote_char (o : CsvReadOptions) (q : Option Nat) :
    CsvReadOptions := { o with quote_char := q }

/-- Builder `with_separator` (a mandatory ASCII byte). -/
def CsvReadOptions.with_separator (o : CsvReadOptions) (s : Nat) :
    CsvReadOptions := { o with separator := s }

/-- Outcome of `read_csv`: a decoded frame, a surfaced decode error, or a
process-aborting panic. -/
inductive ReadOutcome (α : Type)
  | panicked : String → ReadOutcome α
  | err : String → ReadOutcome α
  | ok : α → ReadOutcome α
deriving DecidableEq, Repr

/-- The option-building part of `read_csv` (src/main.rs lines 133-143): the
builder chain from the defaults;
`as_ascii(separator_char).expect("Invalid separator")` panics (none) on a
non-ASCII separator. -/
def read_csv_opts (infer_schema : InferSchema) (quote_char : Char)
    (separator_char : Char) (no_header : Bool) (ignore_errors : Bool) :
    Option CsvReadOptions :=
  (as_ascii separator_char).map (fun sep =>
    ((((CsvReadOptions.start.with_ignore_errors
        ignore_errors).with_infer_schema_length
        infer_schema.toLength).with_has_header
        (!no_header)).with_quote_char
        (as_ascii quote_char)).with_separator sep)

/-- The function `read_csv` of src/main.rs (lines 126-149): build the
options (panicking on a non-ASCII separator), run the reader (`reader`
abstracts polars' `try_into_reader_with_file_path(..).finish()`, which can
fail with a decode error), and apply the `infer_schema_safe` post-pass
(abstracted by `inferSafe`, outside src/) exactly when the Safe mode is
selected. -/
def read_csv (reader : CsvReadOptions → String → Except String DataFrame)
    (inferSafe : DataFrame → DataFrame) (path : String)
    (infer_schema : InferSchema) (quote_char : Char) (separator_char : Char)
    (no_header : Bool) (ignore_errors : Bool) : ReadOutcome DataFrame :=
  match read_csv_opts infer_schema quote_char separator_char no_header
      ignore_errors with
  | none => .panicked "Invalid separator"
  | some opts =>
    match reader opts path with
    | .error e => .err e
    | .ok df =>
      .ok (if infer_schema = InferSchema.safe then inferSafe df else df)

/-- C5: with an ASCII separator byte `b`, `read_csv` configures the reader
exactly from its declared options — `has_header` is the negation of
`no_header`, the separator is `b`, the quote character is the ASCII value of
the given quote character (if any), the inference length is the selected
mode's — and it returns the reader's frame (with the `infer_schema_safe`
post-pass applied exactly when Safe is selected) or the reader's decode
error. -/
theorem read_csv_configures_declared_options
    (infer_schema : InferSchema) (quote_char separator_char : Char)
    (no_header ignore_errors : Bool) (b : Nat)
    (hsep : as_ascii separator_char = some b) :
    read_csv_opts infer_schema quote_char separator_char no_header
        ignore_errors
      = some ⟨ignore_errors, infer_schema.toLength, !no_header,
          as_ascii quote_char, b⟩ ∧
    ∀ (reader : CsvReadOptions → String → Except String DataFrame)
      (inferSafe : DataFrame → DataFrame) (path : String),
      read_csv reader inferSafe path infer_schema quote_char separator_char
          no_header ignore_errors
        = match reader ⟨ignore_errors, infer_schema.toLength, !no_header,
              as_ascii quote_char, b⟩ path with
          | .error e => .err e
          | .ok df =>
            .ok (if infer_schema = InferSchema.safe then inferSafe df
                 else df) := by
  have hopts : read_csv_opts infer_schema quote_char separator_char no_header
      ignore_errors
      = some ⟨ignore_errors, infer_schema.toLength, !no_header,
          as_ascii quote_char, b⟩ := by
    simp [read_csv_opts, hsep, CsvReadOptions.start,
      CsvReadOptions.with_ignore_errors, CsvReadOptions.with_infer_schema_length,
      CsvReadOptions.with_has_header, CsvReadOptions.with_quote_char,
      CsvReadOptions.with_separator]
  exact ⟨hopts, fun reader inferSafe path => by simp [read_csv, hopts]⟩

/-- A concrete reader used by the read_csv witnesses: succeeds with a fixed
frame for every option set and path. -/
def readerEx : CsvReadOptions → String → Except String DataFrame :=
  fun _ _ => .ok dfGood

/-- C5 witness: concrete ASCII options (tab separator, double quote, Safe
mode) produce exactly the declared configuration and the reader's frame with
the safe post-pass applied. -/
theorem read_csv_configures_declared_options_witness :
    read_csv_opts InferSchema.safe '"' '\t' false true
      = some ⟨true, InferSchema.safe.toLength, !false, as_ascii '"', 9⟩ ∧
    ∀ (reader : CsvReadOptions → String → Except String DataFrame)
      (inferSafe : DataFrame → DataFrame) (path : String),
      read_csv reader inferSafe path InferSchema.safe '"' '\t' false true
        = match reader ⟨true, InferSchema.safe.toLength, !false,
              as_ascii '"', 9⟩ path with
          | .error e => .err e
          | .ok df =>
            .ok (if InferSchema.safe = InferSchema.safe then inferSafe df
                 else df) :=
  read_csv_configures_declared_options InferSchema.safe '"' '\t' false true 9
    (by decide)

/-- C9: the two option-validation paths are asymmetric: a non-ASCII separator
character makes `read_csv` panic (aborting the process) before any read,
whereas a non-ASCII quote character never panics — it is silently passed
through as none (no quote character) in the reader options. -/
theorem separator_panics_quote_does_not
    (infer_schema : InferSchema) (quote_char separator_char : Char)
    (no_header ignore_errors : Bool) :
    (as_ascii separator_char = none →
      ∀ (reader : CsvReadOptions → String → Except String DataFrame)
        (inferSafe : DataFrame → DataFrame) (path : String),
        read_csv reader inferSafe path infer_schema quote_char separator_char
            no_header ignore_errors = .panicked "Invalid separator") ∧
    (∀ b, as_ascii separator_char = some b → as_ascii quote_char = none →
      read_csv_opts infer_schema quote_char separator_char no_header
          ignore_errors
        = some ⟨ignore_errors, infer_schema.toLength, !no_header, none, b⟩ ∧
      ∀ (reader : CsvReadOptions → String → Except String DataFrame)
        (inferSafe : DataFrame → DataFrame) (path msg : String),
        read_csv reader inferSafe path infer_schema quote_char separator_char
            no_header ignore_errors ≠ .panicked msg) := by
  constructor
  · intro hsep reader inferSafe path
    simp [read_csv, read_csv_opts, hsep]
  · intro b hsep hq
    have h := read_csv_configures_declared_options infer_schema quote_char
      separator_char no_header ignore_errors b hsep
    rw [hq] at h
    refine ⟨h.1, fun reader inferSafe path msg => ?_⟩
    rw [h.2 reader inferSafe path]
    cases reader ⟨ignore_errors, infer_schema.toLength, !no_header, none, b⟩
        path <;> simp

/-- C9 witness: the non-ASCII separator `é` panics; the non-ASCII quote `é`
with ASCII separator `,` yields a configuration with no quote character and
a non-panicking outcome. -/
theorem separator_panics_quote_does_not_witness :
    read_csv readerEx id "p" InferSchema.full '"' 'é' false false
        = .panicked "Invalid separator" ∧
    (read_csv_opts InferSchema.full 'é' ',' false false
        = some ⟨false, InferSchema.full.toLength, !false, none, 44⟩ ∧
      ∀ (reader : CsvReadOptions → String → Except String DataFrame)
        (inferSafe : DataFrame → DataFrame) (path msg : String),
        read_csv reader inferSafe path InferSchema.full 'é' ',' false false
          ≠ .panicked msg) :=
  ⟨(separator_panics_quote_does_not InferSchema.full '"' 'é' false false).1
      (by decide) readerEx id "p",
    (separator_panics_quote_does_not InferSchema.full 'é' ',' false false).2
      44 (by decide) (by decide)⟩

/-- The chunks `io::stdin().read_line` delivers (src/main.rs lines 118-121):
each chunk runs up to and including a newline; a final chunk without a
newline is delivered as-is just before EOF. -/
def stdinChunks : List Char → List (List Char)
  | [] => []
  | c :: rest =>
    if c = '\n' then ['\n'] :: stdinChunks rest
    else
      match stdinChunks rest with
      | [] => [[c]]
      | l :: ls => (c :: l) :: ls

/-- The bytes `stdin_to_tmp` (src/main.rs lines 114-124) writes to the
temporary file: for each chunk read by `read_line` (newline included),
`writeln!` writes the chunk followed by one more newline. -/
def stdin_to_tmp_content (input : List Char) : List Char :=
  ((stdinChunks input).map (fun l => l ++ ['\n'])).flatten

/-- The input split into lines, newline terminators dropped. -/
def linesOf : List Char → List (List Char)
  | [] => []
  | c :: rest =>
    if c = '\n' then [] :: linesOf rest
    else
      match linesOf rest with
      | [] => [[c]]
      | l :: ls => (c :: l) :: ls

/-- Restatement of claim C8's words, for comparison with the code's
behaviour: every input line written with its newline and a blank line after
it. -/
def blankAfterEachLine (input : List Char) : List Char :=
  ((linesOf input).map (fun l => l ++ ['\n', '\n'])).flatten

/-- Splitting a non-empty input into lines yields at least one line. -/
theorem linesOf_ne_nil (c : Char) (rest : List Char) :
    linesOf (c :: rest) ≠ [] := by
  unfold linesOf
  split
  · exact List.cons_ne_nil _ _
  · split <;> exact List.cons_ne_nil _ _

/-- On newline-terminated input the read chunks are exactly the lines with
their newline terminators. -/
theorem stdinChunks_append_newline (s : List Char) :
    stdinChunks (s ++ ['\n'])
      = (linesOf (s ++ ['\n'])).map (fun l => l ++ ['\n']) := by
  induction s with
  | nil => rfl
  | cons c s ih =>
    by_cases hc : c = '\n'
    · simp only [List.cons_append, stdinChunks, linesOf, if_pos hc,
        List.append_eq, ih, List.map_cons, List.nil_append]
    · have hne : linesOf (s ++ ['\n']) ≠ [] := by
        cases s with
        | nil => exact linesOf_ne_nil '\n' []
        | cons d t => exact linesOf_ne_nil d (t ++ ['\n'])
      obtain ⟨l, ls, hls⟩ := List.exists_cons_of_ne_nil hne
      simp only [List.cons_append, stdinChunks, linesOf, if_neg hc,
        List.append_eq, ih, hls, List.map_cons]

/-- C8 counterexample: for the non-empty stdin input `a` (no trailing
newline) the temporary file holds `a` plus a single newline — it contains no
blank line after the input line, contrary to the claim's "for every non-empty
stdin input". -/
theorem stdin_blank_line_counterexample :
    stdin_to_tmp_content ['a'] = ['a', '\n'] ∧
    stdin_to_tmp_content ['a'] ≠ blankAfterEachLine ['a'] := by
  constructor <;> decide

/-- C8 amended: for every stdin input whose final line is newline-terminated,
`stdin_to_tmp` writes each input line with its trailing newline preserved
plus an additional newline appended by `writeln!`, so the temporary file
contains a blank line after every input line rather than the stdin contents
verbatim (a final unterminated line would instead get a single newline and
no blank line). -/
theorem stdin_blank_line_after_each_terminated_line (s : List Char) :
    stdin_to_tmp_content (s ++ ['\n']) = blankAfterEachLine (s ++ ['\n']) := by
  simp only [stdin_to_tmp_content, blankAfterEachLine,
    stdinChunks_append_newline, List.map_map]
  congr 1
  apply List.map_congr_left
  intro l _
  simp
